import Mathlib

/-!
Verification development for the Data-Wizards crawler core.

Shallow embedding of `backend/modules/project_manager.py`,
`backend/modules/dynamic_scraper.py`, `backend/scraper/site.py` and
`backend/scraper/sitemap.py`.  HTML parsing (BeautifulSoup) is abstracted:
a fetched page is represented by the already-parsed pieces the Python code
reads off the soup (visible text, image alt texts, card elements, meta
tags, anchor hrefs).  Network I/O is represented by oracle functions from
URL to fetch outcome, mirroring the fact that `requests.get` either
returns a response or raises.  Everything else (control flow, string
manipulation, the visited set, the work queue, the interrupt flag) is
translated statement by statement from the Python source.
-/

namespace DataWizards

/-- Character index of the first occurrence of `pat` in `text`
(Python `str.find`, returning `none` for -1).  All string primitives in
this development are structurally recursive over the character list, so
that concrete runs reduce inside the kernel. -/
def charIndexOf : List Char → List Char → Option Nat
  | _, [] => some 0
  | [], _ :: _ => none
  | c :: rest, p :: ps =>
    if (p :: ps).isPrefixOf (c :: rest) then some 0
    else (charIndexOf rest (p :: ps)).map (· + 1)

/-- Python `pat in text` substring test (`''` is contained in everything). -/
def strContains (text pat : String) : Bool :=
  (charIndexOf text.toList pat.toList).isSome

/-- Python `s.lower()` (ASCII case folding). -/
def toLowerStr (s : String) : String :=
  String.mk (s.toList.map Char.toLower)

/-- Python `s.strip()`. -/
def trimStr (s : String) : String :=
  String.mk (((s.toList.dropWhile Char.isWhitespace).reverse.dropWhile
    Char.isWhitespace).reverse)

/-- Python `s.startswith(pre)`. -/
def strStartsWith (s pre : String) : Bool :=
  pre.toList.isPrefixOf s.toList

/-- Python `s.endswith(suf)`. -/
def strEndsWith (s suf : String) : Bool :=
  suf.toList.isSuffixOf s.toList

/-- Python `not s` on strings. -/
def strIsEmpty (s : String) : Bool :=
  s.toList.isEmpty

/-- `urlparse(url).netloc` for `scheme://host/...`-shaped URLs: the text
between the first `://` and the next `/`, `?` or `#`; empty when the URL
has no `://`. -/
def netloc (url : String) : String :=
  match charIndexOf url.toList "://".toList with
  | some i =>
    String.mk ((url.toList.drop (i + 3)).takeWhile fun c => c ≠ '/' && c ≠ '?' && c ≠ '#')
  | none => ""

/-- `urlparse(url).scheme` for `scheme://...`-shaped URLs. -/
def urlScheme (url : String) : String :=
  match charIndexOf url.toList "://".toList with
  | some i => String.mk (url.toList.take i)
  | none => ""

/-- `urlparse(url).path` for `scheme://host/path`-shaped URLs. -/
def urlPath (url : String) : String :=
  match charIndexOf url.toList "://".toList with
  | some i =>
    String.mk (((url.toList.drop (i + 3)).dropWhile
      (fun c => c ≠ '/' && c ≠ '?' && c ≠ '#')).takeWhile fun c => c ≠ '?' && c ≠ '#')
  | none => ""

/-- Python dict assignment `m[k] = v` on an insertion-ordered map. -/
def setAssoc (m : List (String × String)) (k v : String) : List (String × String) :=
  if m.any (fun p => p.1 = k) then
    m.map fun p => if p.1 = k then (k, v) else p
  else m ++ [(k, v)]

/-- Left fold with the accumulator written first, so that the loop body
can follow as a trailing lambda (the shape of the Python `for` loops
being translated). -/
abbrev pyFold {α β : Type} (l : List α) (init : β) (f : β → α → β) : β :=
  List.foldl f init l

/-! ## `check_page_for_keywords` (project_manager.py lines 136-270) -/

/-- A card element as consumed by the card-selector loop of
`check_page_for_keywords`: its `get_text(separator=' ', strip=True)` text
and, when present, the text of its first heading/title descendant. -/
structure CardEl where
  text : String
  title : Option String
  deriving Repr, DecidableEq

/-- A fetched, parsed page: the pieces of the BeautifulSoup document that
the Python code reads.  `rawHtml` is `response.text`; `anchors` is the
list of `href` attributes of `<a href=...>` tags of that HTML. -/
structure PageData where
  text : String := ""
  imageAlts : List String := []
  cards : List CardEl := []
  title : Option String := none
  metaTags : List (String × String) := []
  propTags : List (String × String) := []
  rawHtml : String := ""
  anchors : List String := []
  deriving Repr, DecidableEq

/-- Outcome of one `requests.get`: a parsed page, or a raised exception
(timeout, connection error, HTTP error status). -/
inductive FetchResult where
  | ok (page : PageData)
  | fail (msg : String)
  deriving Repr, DecidableEq

/-- Result quadruple of `check_page_for_keywords`:
`(contains_keywords, found_keywords, meta_info, keyword_contexts)`. -/
structure KeywordCheckResult where
  containsKeywords : Bool
  foundKeywords : List String
  metaInfo : List (String × String)
  keywordContexts : List (String × String)
  deriving Repr, DecidableEq

/-- Mutable state threaded through the keyword scan. -/
abbrev KwState := KeywordCheckResult

/-- The ±50-character context window around the first occurrence of the
keyword in the (lowercased) page text (project_manager.py lines 166-172). -/
def contextWindow (textContent : String) (keyword : String) : Option String :=
  let tcs := textContent.toList
  match charIndexOf tcs (toLowerStr keyword).toList with
  | none => none
  | some startIdx =>
    let contextStart := startIdx - 50
    let contextEnd := min tcs.length (startIdx + keyword.length + 50)
    let context := ((tcs.drop contextStart).take (contextEnd - contextStart)).map
      fun c => if c = '\n' then ' ' else c
    some ("..." ++ trimStr (String.mk context) ++ "...")

/-- Keyword scan over the full visible text (lines 158-172). -/
def kwScanText (textContent : String) (keywords : List String) (st : KwState) : KwState :=
  pyFold keywords st fun st keyword =>
    let keywordLower := toLowerStr keyword
    if strContains textContent keywordLower then
      let st := { st with containsKeywords := true,
                          foundKeywords :=
                            if st.foundKeywords.contains keyword then st.foundKeywords
                            else st.foundKeywords ++ [keyword] }
      match contextWindow textContent keyword with
      | some ctx => { st with keywordContexts := setAssoc st.keywordContexts keyword ctx }
      | none => st
    else st

/-- Keyword scan over image `alt` texts (lines 176-185). -/
def kwScanImages (imageAlts : List String) (keywords : List String) (st : KwState) : KwState :=
  pyFold imageAlts st fun st alt =>
    let altText := toLowerStr alt
    pyFold keywords st fun st keyword =>
      if strContains altText (toLowerStr keyword) then
        { st with containsKeywords := true,
                  foundKeywords :=
                    if st.foundKeywords.contains keyword then st.foundKeywords
                    else st.foundKeywords ++ [keyword],
                  keywordContexts := setAssoc st.keywordContexts keyword ("Image alt: " ++ alt) }
      else st

/-- Keyword scan over card-like elements (lines 187-214). -/
def kwScanCards (cards : List CardEl) (keywords : List String) (st : KwState) : KwState :=
  pyFold cards st fun st card =>
    let cardText := toLowerStr card.text
    pyFold keywords st fun st keyword =>
      if strContains cardText (toLowerStr keyword) then
        let ctx := match card.title with
          | some titleText => "Card title: " ++ titleText
          | none =>
            let contextPart :=
              if cardText.length > 100 then String.mk (cardText.toList.take 100) ++ "..."
              else cardText
            "Card content: " ++ contextPart
        { st with containsKeywords := true,
                  foundKeywords :=
                    if st.foundKeywords.contains keyword then st.foundKeywords
                    else st.foundKeywords ++ [keyword],
                  keywordContexts := setAssoc st.keywordContexts keyword ctx }
      else st

/-- Keyword scan over `<title>` and meta tags, run when `include_meta`
(lines 217-264). -/
def kwScanMeta (page : PageData) (keywords : List String) (st : KwState) : KwState :=
  -- title tag (lines 219-231)
  let st := match page.title with
    | some titleTextOrig =>
      let titleText := toLowerStr titleTextOrig
      let st := { st with metaInfo := setAssoc st.metaInfo "title" titleTextOrig }
      pyFold keywords st fun st keyword =>
        if strContains titleText (toLowerStr keyword) then
          { st with containsKeywords := true,
                    foundKeywords :=
                      if st.foundKeywords.contains keyword then st.foundKeywords
                      else st.foundKeywords ++ [keyword],
                    keywordContexts :=
                      setAssoc st.keywordContexts keyword ("Title: " ++ titleTextOrig) }
        else st
    | none => st
  -- <meta name=...> tags (lines 234-247)
  let st := pyFold page.metaTags st fun st tag =>
    let metaName := toLowerStr tag.1
    let metaContent := toLowerStr tag.2
    if (metaName = "description" || metaName = "keywords") && !(strIsEmpty metaContent) then
      let st := { st with metaInfo := setAssoc st.metaInfo metaName tag.2 }
      pyFold keywords st fun st keyword =>
        if strContains metaContent (toLowerStr keyword) then
          { st with containsKeywords := true,
                    foundKeywords :=
                      if st.foundKeywords.contains keyword then st.foundKeywords
                      else st.foundKeywords ++ [keyword],
                    keywordContexts :=
                      setAssoc st.keywordContexts keyword
                        ("Meta " ++ metaName ++ ": " ++ tag.2) }
        else st
    else st
  -- <meta property=...> Open Graph / Twitter tags (lines 250-264)
  pyFold page.propTags st fun st tag =>
    let metaProp := toLowerStr tag.1
    let metaContent := toLowerStr tag.2
    if strContains metaProp "og:" || strContains metaProp "twitter:" then
      let propType := if strContains metaProp "og:" then "Open Graph" else "Twitter"
      let st := { st with metaInfo := setAssoc st.metaInfo metaProp tag.2 }
      pyFold keywords st fun st keyword =>
        if strContains metaContent (toLowerStr keyword) then
          { st with containsKeywords := true,
                    foundKeywords :=
                      if st.foundKeywords.contains keyword then st.foundKeywords
                      else st.foundKeywords ++ [keyword],
                    keywordContexts :=
                      setAssoc st.keywordContexts keyword (propType ++ ": " ++ tag.2) }
        else st
    else st

/-- `check_page_for_keywords(url, keywords, include_meta)`.  `web` is the
network: the outcome of the `requests.get(url, timeout=15)` call this
function performs.  A raised exception (fetch failure, parse error) lands
in the `except` branch (lines 268-270), which returns
`(False, [], {}, {})`. -/
def check_page_for_keywords (web : String → FetchResult) (url : String)
    (keywords : List String) (include_meta : Bool) : KeywordCheckResult :=
  match web url with
  | .fail _ => ⟨false, [], [], []⟩
  | .ok page =>
    let textContent := toLowerStr page.text
    let st : KwState := ⟨false, [], [], []⟩
    let st := kwScanText textContent keywords st
    let st := kwScanImages page.imageAlts keywords st
    let st := kwScanCards page.cards keywords st
    if include_meta then kwScanMeta page keywords st else st

/-! ## `extract_links_from_html` (project_manager.py lines 403-442) -/

/-- Normalize one `href` against the base URL, mirroring lines 416-432:
skip empty / `javascript:` / bare-`#` hrefs, root-relative hrefs get
`scheme://base_domain` prefixed, other non-absolute hrefs are appended to
the base URL with a `/` separator.  Returns `none` for skipped hrefs. -/
def normalizeHref (baseUrl baseDomain scheme : String) (hrefRaw : String) : Option String :=
  let href := trimStr hrefRaw
  if strIsEmpty href || strStartsWith href "javascript:" || href = "#" then none
  else
    let href :=
      if strStartsWith href "/" then
        (if strIsEmpty scheme then "https" else scheme) ++ "://" ++ baseDomain ++ href
      else if !(strStartsWith href "http://") && !(strStartsWith href "https://") then
        if !(strEndsWith baseUrl "/") then baseUrl ++ "/" ++ href else baseUrl ++ href
      else href
    some href

/-- `extract_links_from_html(html_content, base_url)`: normalize every
anchor href and keep those whose parsed host equals the base host **or is
empty** (line 436: `parsed_href.netloc == base_domain or not
parsed_href.netloc`).  The Python `set` is modelled as a first-occurrence
deduplicated list. -/
def extract_links_from_html (anchors : List String) (baseUrl : String) : List String :=
  let baseDomain := netloc baseUrl
  let scheme := urlScheme baseUrl
  pyFold anchors [] fun links hrefRaw =>
    match normalizeHref baseUrl baseDomain scheme hrefRaw with
    | none => links
    | some href =>
      if netloc href = baseDomain || netloc href = "" then
        if links.contains href then links else links ++ [href]
      else links

/-! ## The crawl engine (`run_extraction_thread`, project_manager.py
lines 580-957) -/

/-- Job status constants (lines 44-47). -/
inductive Status where
  | running
  | interrupted
  | completed
  | error
  deriving Repr, DecidableEq

/-- One enqueue event: a `url_queue.put((url, depth))` call.  `parent`
records the page being processed when the entry was enqueued (`none` for
the seed and the sitemap pages, which are enqueued before the loop). -/
structure EnqueueEvent where
  url : String
  depth : Nat
  parent : Option (String × Nat)
  deriving Repr, DecidableEq

/-- The crawl thread's mutable state.  `queue` is the FIFO `url_queue`,
`visited` the `visited_urls` set (insertion-ordered), `time` counts reads
of the interrupt flag, `fetchedTrace` records every page processed by the
loop body (one `scrape_website` call each), `requests` records every
`requests.get` issued (keyword check and scrape alike), `enqueueTrace`
records every enqueue, `persisted` every `extraction_status` value written
to the store. -/
structure EngineState where
  queue : List (String × Nat) := []
  visited : List String := []
  scrapedPages : List String := []
  errors : List String := []
  pagesChecked : Nat := 0
  pagesWithKeywords : Nat := 0
  keywordMatchedUrls : List String := []
  status : Status := .running
  time : Nat := 0
  fetchedTrace : List (String × Nat) := []
  requests : List String := []
  enqueueTrace : List EnqueueEvent := []
  persisted : List Status := []
  deriving Repr, DecidableEq

/-- Static configuration of one crawl job.  `kwWeb` is the network as
seen by the `requests.get(..., timeout=15)` inside
`check_page_for_keywords`; `scrapeWeb` the network as seen by the
`requests.get(..., timeout=30)` inside `scrape_website` (two distinct
call sites, so a transient failure can hit one and not the other).
`interrupt` gives the value of the per-job interrupt flag at its n-th
read (`should_interrupt`, lines 959-963). -/
structure EngineConfig where
  kwWeb : String → FetchResult
  scrapeWeb : String → FetchResult
  interrupt : Nat → Bool
  searchKeywords : List String
  includeMeta : Bool
  maxDepth : Nat

/-- The message appended to the job's error list when the pre-dequeue
interrupt check fires (line 741). -/
def interruptErrorMsg : String := "Extraction was interrupted by user request"

/-- The keyword-filtering step of the loop body (lines 778-801): when
keywords were supplied, `check_page_for_keywords` fetches the page once
more and decides `should_store`. -/
def keywordPhase (cfg : EngineConfig) (st : EngineState) (currentUrl : String) :
    EngineState × Bool :=
  if cfg.searchKeywords ≠ [] then
    if (check_page_for_keywords cfg.kwWeb currentUrl cfg.searchKeywords
          cfg.includeMeta).containsKeywords then
      ({ st with requests := st.requests ++ [currentUrl],
                 keywordMatchedUrls := st.keywordMatchedUrls ++ [currentUrl],
                 pagesWithKeywords := st.pagesWithKeywords + 1 }, true)
    else ({ st with requests := st.requests ++ [currentUrl] }, false)
  else (st, true)

/-- The enqueue loop over the freshly extracted links (lines 817-820):
a link is enqueued at `depth + 1` whenever it is not in the visited set —
the queue itself is not consulted, and the visited set is **not**
extended here. -/
def enqueueLinks (currentUrl : String) (depth : Nat) (st : EngineState)
    (links : List String) : EngineState :=
  pyFold links st fun st link =>
    if st.visited.contains link then st
    else { st with
           queue := st.queue ++ [(link, depth + 1)],
           enqueueTrace := st.enqueueTrace ++ [⟨link, depth + 1, some (currentUrl, depth)⟩] }

/-- The link-extraction step (lines 807-826): only below `max_depth`, and
only when the scrape returned raw HTML (`scraped_data.get('raw_html','')`
is empty for a failed fetch). -/
def linkPhase (cfg : EngineConfig) (st : EngineState) (currentUrl : String) (depth : Nat)
    (scraped : FetchResult) : EngineState :=
  if depth < cfg.maxDepth then
    match scraped with
    | .ok p =>
      -- `scraped_data.get('raw_html', '')` is non-empty only on a successful fetch
      if p.rawHtml ≠ "" then
        enqueueLinks currentUrl depth st (extract_links_from_html p.anchors currentUrl)
      else st
    | .fail _ => st
  else st

/-- The loop body for one dequeued `(current_url, depth)` that passed the
visited and domain checks (lines 776-852): keyword check (when keywords
were supplied), scrape, link extraction below `max_depth`, conditional
store.  `scrape_website` never raises — a fetch failure returns an error
record with no `raw_html` (site.py lines 138-164) — so the `except`
branch of lines 847-852 is not reachable from the modelled calls. -/
def processPage (cfg : EngineConfig) (st : EngineState)
    (currentUrl : String) (depth : Nat) : EngineState :=
  let kw := keywordPhase cfg st currentUrl
  let st := kw.1
  let shouldStore := kw.2
  -- scrape the page (line 805); the error dict is still a return value
  let st := { st with requests := st.requests ++ [currentUrl] }
  let scraped := cfg.scrapeWeb currentUrl
  let st := { st with fetchedTrace := st.fetchedTrace ++ [(currentUrl, depth)] }
  let st := linkPhase cfg st currentUrl depth scraped
  -- store the scraped data if needed (lines 828-845)
  if shouldStore then { st with scrapedPages := st.scrapedPages ++ [currentUrl] } else st

/-- The post-loop completion block (lines 885-921): runs both on queue
exhaustion and after a `break`, and unconditionally writes
`STATUS_COMPLETED`. -/
def finalizeCompleted (st : EngineState) : EngineState :=
  { st with status := .completed, persisted := st.persisted ++ [.completed] }

/-- `handle_interruption` (lines 965-1031), reached from the post-page
interrupt check (lines 880-883): persists `STATUS_INTERRUPTED` and
returns from the thread function. -/
def handleInterruption (st : EngineState) : EngineState :=
  { st with status := .interrupted, persisted := st.persisted ++ [.interrupted] }

/-- The crawl loop (`while not url_queue.empty()`, lines 730-883),
fuel-limited.  Exhausted fuel returns the state mid-run (status still
`running`). -/
def runLoop (cfg : EngineConfig) (baseDomain : String) :
    Nat → EngineState → EngineState
  | 0, st => st
  | fuel + 1, st =>
    match st.queue with
    | [] => finalizeCompleted st
    | (currentUrl, depth) :: rest =>
      -- pre-dequeue interrupt check (lines 737-756): on interrupt the
      -- status is persisted as interrupted and the loop breaks — after
      -- which the completion block still runs.
      let intr := cfg.interrupt st.time
      let st' := { st with time := st.time + 1 }
      if intr then
        finalizeCompleted
          { st' with status := .interrupted,
                     errors := st'.errors ++ [interruptErrorMsg],
                     persisted := st'.persisted ++ [.interrupted] }
      else
        let st' := { st' with queue := rest }
        -- skip if already visited (lines 760-762)
        if st'.visited.contains currentUrl then runLoop cfg baseDomain fuel st'
        -- skip if from a different domain (lines 764-767)
        else if netloc currentUrl ≠ baseDomain then runLoop cfg baseDomain fuel st'
        else
          -- mark as visited, count the page (lines 769-771)
          let st' := { st' with
                       visited := st'.visited ++ [currentUrl],
                       pagesChecked := st'.pagesChecked + 1 }
          let st' := processPage cfg st' currentUrl depth
          -- post-page interrupt check (lines 880-883)
          let intr2 := cfg.interrupt st'.time
          let st' := { st' with time := st'.time + 1 }
          if intr2 then handleInterruption st'
          else runLoop cfg baseDomain fuel st'

/-- Step 3 of the thread (lines 716-724): queue every sitemap page not
yet visited, at depth 0. -/
def queueSitemapPages (st : EngineState) (sitemapPages : List String) : EngineState :=
  pyFold sitemapPages st fun st pageUrl =>
    if st.visited.contains pageUrl then st
    else { st with queue := st.queue ++ [(pageUrl, 0)],
                   enqueueTrace := st.enqueueTrace ++ [⟨pageUrl, 0, none⟩] }

/-- `run_extraction_thread`: seed the queue with `(url, 0)` (line 613),
queue every sitemap page not yet visited at depth 0 (lines 719-721), then
run the crawl loop.  `pages_limit` is the function's `pages_limit`
parameter; `initErrors` stands for the error entries accumulated by the
robots.txt/sitemap steps before the loop.  The host bound is
`base_domain = urlparse(url).netloc` (line 614). -/
def run_extraction_thread (pages_limit : Nat) (cfg : EngineConfig) (url : String)
    (sitemapPages : List String) (initErrors : List String) (fuel : Nat) : EngineState :=
  let st : EngineState :=
    { queue := [(url, 0)], errors := initErrors,
      enqueueTrace := [⟨url, 0, none⟩] }
  runLoop cfg (netloc url) fuel (queueSitemapPages st sitemapPages)

/-! ## Pagination resolution (`dynamic_scraper.py`) -/

/-- Python `int(s)` on a trimmed digit string; `none` models a raised
`ValueError`. -/
def parseIntOpt (s : String) : Option Nat :=
  let t := trimStr s
  if !(strIsEmpty t) && t.toList.all Char.isDigit then
    some (t.toList.foldl (fun n c => n * 10 + (c.toNat - 48)) 0)
  else none

/-- Split a character list on a separator character (Python
`s.split(sep)` for a one-character separator). -/
def splitOnSep (sep : Char) : List Char → List (List Char)
  | [] => [[]]
  | c :: rest =>
    if c = sep then [] :: splitOnSep sep rest
    else match splitOnSep sep rest with
      | h :: t => (c :: h) :: t
      | [] => [[c]]

/-- Digit accumulator for `natToStr`, fuel-recursive so that it reduces
inside the kernel. -/
def natToStrAux : Nat → Nat → List Char → List Char
  | 0, _, acc => acc
  | fuel + 1, n, acc =>
    if n < 10 then Char.ofNat (48 + n) :: acc
    else natToStrAux fuel (n / 10) (Char.ofNat (48 + n % 10) :: acc)

/-- Decimal rendering of a natural number (Python `str(n)`). -/
def natToStr (n : Nat) : String :=
  String.mk (natToStrAux (n + 1) n [])

/-- Truthiness of Python `Optional[int]` (`None` and `0` are falsy). -/
def isTruthy : Option Nat → Bool
  | some n => n ≠ 0
  | none => false

/-- `re.search` for a pattern of the shape `prefix(\d+)`: scan left to
right; at the first position where one of `pats` occurs followed by at
least one digit, return the value of the maximal digit run. -/
def searchNumAfter (pats : List (List Char)) : List Char → Option Nat
  | [] => none
  | c :: rest =>
    match pats.findSome? (fun p =>
        if p.isPrefixOf (c :: rest) then
          let ds := ((c :: rest).drop p.length).takeWhile Char.isDigit
          if ds.isEmpty then none
          else some (ds.foldl (fun n d => n * 10 + (d.toNat - 48)) 0)
        else none) with
    | some n => some n
    | none => searchNumAfter pats rest

/-- `extract_page_number_from_url` (dynamic_scraper.py lines 485-505):
the six URL pagination patterns, tried in order. -/
def extract_page_number_from_url (url : String) : Option Nat :=
  let cs := url.toList
  match searchNumAfter ["?page=".toList, "&page=".toList] cs with
  | some n => some n
  | none =>
  match searchNumAfter ["?p=".toList, "&p=".toList] cs with
  | some n => some n
  | none =>
  match searchNumAfter ["/page/".toList] cs with
  | some n => some n
  | none =>
  match searchNumAfter ["/p/".toList] cs with
  | some n => some n
  | none =>
  match searchNumAfter ["-page-".toList] cs with
  | some n => some n
  | none => searchNumAfter ["/pages/".toList] cs

/-- The pattern guard of the third priority of `find_next_page_link`
(line 305): `[?&]page=`, `[?&]p=` or `/page/` followed by digits. -/
def hasPaginationPattern (href : String) : Bool :=
  (searchNumAfter ["?page=".toList, "&page=".toList] href.toList).isSome ||
  (searchNumAfter ["?p=".toList, "&p=".toList] href.toList).isSome ||
  (searchNumAfter ["/page/".toList] href.toList).isSome

/-- `urllib.parse.urljoin` restricted to the http(s) cases this code
meets: absolute hrefs pass through, `//`-prefixed take the base scheme,
`/`-prefixed replace the base path, other hrefs replace the last segment
of the base path (`..` handling not modelled — no claim depends on it). -/
def urljoin (base href : String) : String :=
  if strStartsWith href "http://" || strStartsWith href "https://" then href
  else if strStartsWith href "//" then urlScheme base ++ ":" ++ href
  else if strStartsWith href "/" then urlScheme base ++ "://" ++ netloc base ++ href
  else if strIsEmpty href then base
  else
    let root := urlScheme base ++ "://" ++ netloc base
    let p := (urlPath base).toList
    let dir := (p.reverse.dropWhile (· ≠ '/')).reverse
    if dir.isEmpty then root ++ "/" ++ href else root ++ String.mk dir ++ href

/-- `make_absolute_url` (dynamic_scraper.py lines 507-511). -/
def make_absolute_url (href base_url : String) : String :=
  if strIsEmpty href then base_url else urljoin base_url href

/-- A pagination element as consumed by `find_next_page_link` and
`find_current_page_number`: one entry of `soup.select(pagination_selector)`.
`text` is its raw `get_text()`, `innerAnchorHref` the `href` of
`element.find('a')` when that anchor exists and has one. -/
structure PagEl where
  name : String := ""
  text : String := ""
  ariaLabel : String := ""
  href : Option String := none
  innerAnchorHref : Option String := none
  classes : List String := []
  ariaCurrent : Option String := none
  deriving Repr, DecidableEq

/-- `find_current_page_number` (dynamic_scraper.py lines 447-483). -/
def find_current_page_number (pagination_elements : List PagEl) : Option Nat :=
  match pagination_elements.findSome? (fun (element : PagEl) =>
      let byClass :=
        if element.classes.any (fun cls => cls = "active" || cls = "current" || cls = "selected")
        then
          match parseIntOpt (trimStr element.text) with
          | some n => some n
          | none =>
            if element.name = "a" then
              match element.href with
              | some href =>
                let pageNum := extract_page_number_from_url href
                if isTruthy pageNum then pageNum else none
              | none => none
            else none
        else none
      match byClass with
      | some n => some n
      | none =>
        if element.ariaCurrent = some "page" then parseIntOpt (trimStr element.text)
        else none) with
  | some n => some n
  | none => pagination_elements.findSome? fun (element : PagEl) => parseIntOpt (trimStr element.text)

/-- The next-page vocabulary of `find_next_page_link` (line 278). -/
def next_indicators : List String := ["next", "next page", "›", "»", "next »", "forward"]

/-- `find_next_page_link(soup, pagination_selector, current_url)`
(dynamic_scraper.py lines 263-330).  `pagination_elements` is the result
of `soup.select(pagination_selector)`.  Four priorities: next-vocabulary
text/aria match, current-page+1 text match, larger numeric page parameter
in the href, and as a last resort the last anchor with a same-host,
different-path href. -/
def find_next_page_link (pagination_elements : List PagEl) (current_url : String) :
    Option String :=
  if pagination_elements.isEmpty then none
  else
    let current_page := find_current_page_number pagination_elements
    let firstPriority := pagination_elements.findSome? fun (element : PagEl) =>
      let elementText := toLowerStr (trimStr element.text)
      let ariaLabel := toLowerStr element.ariaLabel
      if next_indicators.any (fun ind => strContains elementText ind || strContains ariaLabel ind)
      then
        if element.name = "a" then
          match element.href with
          | some href => some (make_absolute_url href current_url)
          | none =>
            match element.innerAnchorHref with
            | some href => some (make_absolute_url href current_url)
            | none => none
        else
          match element.innerAnchorHref with
          | some href => some (make_absolute_url href current_url)
          | none => none
      else none
    match firstPriority with
    | some u => some u
    | none =>
    let secondPriority :=
      match current_page with
      | some n =>
        if n ≠ 0 then
          pagination_elements.findSome? fun (element : PagEl) =>
            match element.href with
            | some href =>
              if element.name = "a" && trimStr element.text = natToStr (n + 1) then
                some (make_absolute_url href current_url)
              else none
            | none => none
        else none
      | none => none
    match secondPriority with
    | some u => some u
    | none =>
    let thirdPriority := pagination_elements.findSome? fun (element : PagEl) =>
      match element.href with
      | some href =>
        if element.name = "a" && hasPaginationPattern href then
          let urlPageNum := extract_page_number_from_url href
          let currentUrlPageNum := extract_page_number_from_url current_url
          match urlPageNum, currentUrlPageNum with
          | some u, some c =>
            if u ≠ 0 && c ≠ 0 && u > c then some (make_absolute_url href current_url)
            else none
          | _, _ => none
        else none
      | none => none
    match thirdPriority with
    | some u => some u
    | none =>
    pagination_elements.reverse.findSome? fun (element : PagEl) =>
      match element.href with
      | some hrefRaw =>
        if element.name = "a" then
          let href := make_absolute_url hrefRaw current_url
          if href ≠ current_url && netloc current_url = netloc href &&
             urlPath current_url ≠ urlPath href then some href
          else none
        else none
      | none => none

/-- An anchor as consumed by `find_pagination_with_heuristics`:
`stringSelf` is BeautifulSoup's `.string` of the tag (used by
`find_all('a', string=...)`), `innerTexts` the `.string`s of descendant
`span`/`i`/`div` tags. -/
structure HAnchor where
  href : Option String := none
  text : String := ""
  stringSelf : Option String := none
  innerTexts : List String := []
  ariaLabel : Option String := none
  deriving Repr, DecidableEq

/-- The parsed-page view of `find_pagination_with_heuristics`:
all anchors of the document, and the anchor lists of the pagination
containers found by the nine container selectors (hits only, selector
order). -/
structure HeurPage where
  anchors : List HAnchor := []
  containers : List (List HAnchor) := []
  deriving Repr, DecidableEq

/-- The next-page vocabulary of the heuristic path (line 343). -/
def next_text_indicators : List String :=
  ["next", "next page", "next »", "›", "»", "forward", "more"]

/-- `urlparse(url).query`: the text between the first `?` after the host
and the first `#`. -/
def urlQuery (url : String) : String :=
  match charIndexOf url.toList ['?'] with
  | some i => String.mk ((url.toList.drop (i + 1)).takeWhile (· ≠ '#'))
  | none => ""

/-- `find_pagination_with_heuristics(soup, current_url, processed_urls)`
(dynamic_scraper.py lines 332-445).  Returns the first hit of: anchors
whose `.string` or nested span/i/div text carries a next indicator
(guarded against `current_url` and `processed_urls`), anchors with a
matching `aria-label` (guarded), container anchors with indicator text
(guarded) or with page number `current+1` in the href (**unguarded**,
lines 392-397), and finally the query-parameter reconstruction, which
computes `urlparse('').geturl()` — the empty string — and only returns it
when the current URL's host is also empty (lines 418-439). -/
def find_pagination_with_heuristics (page : HeurPage) (current_url : String)
    (processed_urls : List String) : Option String :=
  let branch1 := next_text_indicators.findSome? fun indicator =>
    match page.anchors.findSome? (fun aTag =>
        match aTag.stringSelf, aTag.href with
        | some s, some href =>
          if strContains (toLowerStr s) indicator then
            let nextUrl := make_absolute_url href current_url
            if nextUrl ≠ current_url && !processed_urls.contains nextUrl then some nextUrl
            else none
          else none
        | _, _ => none) with
    | some u => some u
    | none =>
      page.anchors.findSome? fun aTag =>
        match aTag.href with
        | some href =>
          if aTag.innerTexts.any (fun s => strContains (toLowerStr s) indicator) then
            let nextUrl := make_absolute_url href current_url
            if nextUrl ≠ current_url && !processed_urls.contains nextUrl then some nextUrl
            else none
          else none
        | none => none
  match branch1 with
  | some u => some u
  | none =>
  let branch2 := page.anchors.findSome? fun aTag =>
    match aTag.ariaLabel, aTag.href with
    | some label, some href =>
      if next_text_indicators.any (fun ind => strContains (toLowerStr label) ind) then
        let nextUrl := make_absolute_url href current_url
        if nextUrl ≠ current_url && !processed_urls.contains nextUrl then some nextUrl
        else none
      else none
    | _, _ => none
  match branch2 with
  | some u => some u
  | none =>
  let branch3 := page.containers.findSome? fun links =>
    match links.findSome? (fun aTag =>
        match aTag.href with
        | some href =>
          if next_text_indicators.any (fun ind => strContains (toLowerStr aTag.text) ind) then
            let nextUrl := make_absolute_url href current_url
            if nextUrl ≠ current_url && !processed_urls.contains nextUrl then some nextUrl
            else none
          else none
        | none => none) with
    | some u => some u
    | none =>
      match extract_page_number_from_url current_url with
      | some currentPageNum =>
        if currentPageNum ≠ 0 then
          links.findSome? fun aTag =>
            match aTag.href with
            | some href =>
              match extract_page_number_from_url href with
              | some urlPageNum =>
                if urlPageNum ≠ 0 && urlPageNum = currentPageNum + 1 then
                  some (make_absolute_url href current_url)
                else none
              | none => none
            | none => none
        else none
      | none => none
  match branch3 with
  | some u => some u
  | none =>
  let queryParams := (splitOnSep '&' (urlQuery current_url).toList).map String.mk
  let found := queryParams.findSome? fun param =>
    match charIndexOf param.toList ['='] with
    | some i =>
      let key := String.mk (param.toList.take i)
      let value := String.mk (param.toList.drop (i + 1))
      if key = "page" || key = "p" || key = "pg" || key = "paged" then
        (parseIntOpt value).map fun v => (key, v)
      else none
    | none => none
  match found with
  | some _ =>
    let nextUrl := ""
    if netloc nextUrl = netloc current_url then some nextUrl else none
  | none => none

/-! ## The dynamic-scraper pagination loop (`run_dynamic_scraper`,
dynamic_scraper.py lines 17-208) -/

/-- The parsed page as seen by one iteration of the pagination loop:
the selector hits for `find_next_page_link` and the document view for
`find_pagination_with_heuristics`. -/
structure DynPage where
  selElements : List PagEl := []
  heur : HeurPage := {}
  deriving Repr, DecidableEq

/-- State of the pagination loop.  `trace` records the URLs whose fetch
succeeded and whose cards were scraped, in order. -/
structure DynState where
  current : Option String
  processed : List String := []
  pagesScraped : Nat := 0
  trace : List String := []
  warnings : List String := []
  errors : List String := []
  status : Status := .running
  deriving Repr, DecidableEq

/-- The `while current_url and pages_scraped < max_pages` loop
(lines 51-179), fuel-limited.  `web` is the fetch oracle (`none` models a
raised request exception); `hasSelector` tells whether a non-empty
`pagination_selector` was configured. -/
def dynLoop (web : String → Option DynPage) (hasSelector : Bool) (maxPages : Nat) :
    Nat → DynState → DynState
  | 0, st => st
  | fuel + 1, st =>
    match st.current with
    | none => { st with status := .completed }
    | some currentUrl =>
      if st.pagesScraped < maxPages then
        -- avoid processing the same URL twice (lines 53-58): break
        if st.processed.contains currentUrl then
          { st with status := .completed,
                    warnings := st.warnings ++
                      ["Pagination loop detected at " ++ currentUrl ++ ", stopping recursion"] }
        else
          let st := { st with processed := st.processed ++ [currentUrl] }
          match web currentUrl with
          | none =>
            -- request exception (lines 170-176): record error, clear current
            dynLoop web hasSelector maxPages fuel
              { st with errors := st.errors ++ ["Failed to fetch page " ++ currentUrl],
                        current := none }
          | some page =>
            let st := { st with pagesScraped := st.pagesScraped + 1,
                                trace := st.trace ++ [currentUrl] }
            -- enhanced pagination detection (lines 128-168)
            let next : Option String :=
              if hasSelector then
                match find_next_page_link page.selElements currentUrl with
                | some nextPageUrl =>
                  if nextPageUrl ≠ currentUrl && !st.processed.contains nextPageUrl then
                    some nextPageUrl
                  else find_pagination_with_heuristics page.heur currentUrl st.processed
                | none => find_pagination_with_heuristics page.heur currentUrl st.processed
              else find_pagination_with_heuristics page.heur currentUrl st.processed
            dynLoop web hasSelector maxPages fuel { st with current := next }
      else { st with status := .completed }

/-- `run_dynamic_scraper` without the store/transport glue: start from
the configured URL with the fixed safety limit `max_pages = 50`
(line 36). -/
def run_dynamic_scraper (web : String → Option DynPage) (hasSelector : Bool)
    (url : String) (fuel : Nat) : DynState :=
  dynLoop web hasSelector 50 fuel { current := some url }

/-! ## Frame lemmas for the crawl-loop body -/

theorem keywordPhase_frame (cfg : EngineConfig) (st : EngineState) (u : String) :
    (keywordPhase cfg st u).1.queue = st.queue ∧
    (keywordPhase cfg st u).1.visited = st.visited ∧
    (keywordPhase cfg st u).1.scrapedPages = st.scrapedPages ∧
    (keywordPhase cfg st u).1.errors = st.errors ∧
    (keywordPhase cfg st u).1.pagesChecked = st.pagesChecked ∧
    (keywordPhase cfg st u).1.status = st.status ∧
    (keywordPhase cfg st u).1.time = st.time ∧
    (keywordPhase cfg st u).1.fetchedTrace = st.fetchedTrace ∧
    (keywordPhase cfg st u).1.enqueueTrace = st.enqueueTrace ∧
    (keywordPhase cfg st u).1.persisted = st.persisted := by
  unfold keywordPhase
  split
  · split <;> simp
  · simp

theorem keywordPhase_requests (cfg : EngineConfig) (st : EngineState) (u : String) :
    (keywordPhase cfg st u).1.requests = st.requests ∨
      (keywordPhase cfg st u).1.requests = st.requests ++ [u] := by
  unfold keywordPhase
  split
  · split <;> simp
  · simp

theorem keywordPhase_store_of_no_keywords (cfg : EngineConfig) (st : EngineState) (u : String)
    (h : cfg.searchKeywords = []) : (keywordPhase cfg st u).2 = true := by
  unfold keywordPhase
  rw [h]
  simp

theorem enqueueLinks_cons (u : String) (d : Nat) (st : EngineState) (l : String)
    (ls : List String) :
    enqueueLinks u d st (l :: ls) =
      if st.visited.contains l then enqueueLinks u d st ls
      else
        enqueueLinks u d
          { st with queue := st.queue ++ [(l, d + 1)],
                    enqueueTrace := st.enqueueTrace ++ [⟨l, d + 1, some (u, d)⟩] } ls := by
  simp only [enqueueLinks, pyFold, List.foldl_cons]
  split <;> rfl

theorem enqueueLinks_spec (u : String) (d : Nat) (links : List String) :
    ∀ st : EngineState, ∃ as : List String,
      (enqueueLinks u d st links).queue = st.queue ++ as.map (fun v => (v, d + 1)) ∧
      (enqueueLinks u d st links).enqueueTrace =
        st.enqueueTrace ++ as.map (fun v => ⟨v, d + 1, some (u, d)⟩) ∧
      (enqueueLinks u d st links).visited = st.visited ∧
      (enqueueLinks u d st links).scrapedPages = st.scrapedPages ∧
      (enqueueLinks u d st links).errors = st.errors ∧
      (enqueueLinks u d st links).status = st.status ∧
      (enqueueLinks u d st links).time = st.time ∧
      (enqueueLinks u d st links).fetchedTrace = st.fetchedTrace ∧
      (enqueueLinks u d st links).pagesChecked = st.pagesChecked ∧
      (enqueueLinks u d st links).persisted = st.persisted := by
  induction links with
  | nil =>
    intro st
    exact ⟨[], by simp [enqueueLinks, pyFold]⟩
  | cons l ls ih =>
    intro st
    by_cases h : st.visited.contains l
    · rw [enqueueLinks_cons, if_pos h]
      exact ih st
    · rw [enqueueLinks_cons, if_neg h]
      obtain ⟨as, h1, h2, h3, h4, h5, h6, h7, h8, h9, h10⟩ :=
        ih { st with queue := st.queue ++ [(l, d + 1)],
                     enqueueTrace := st.enqueueTrace ++ [⟨l, d + 1, some (u, d)⟩] }
      exact ⟨l :: as, by simpa using h1, by simpa using h2, h3, h4, h5, h6, h7, h8, h9, h10⟩

theorem linkPhase_spec (cfg : EngineConfig) (st : EngineState) (u : String) (d : Nat)
    (scraped : FetchResult) :
    ∃ as : List String,
      (linkPhase cfg st u d scraped).queue = st.queue ++ as.map (fun v => (v, d + 1)) ∧
      (linkPhase cfg st u d scraped).enqueueTrace =
        st.enqueueTrace ++ as.map (fun v => ⟨v, d + 1, some (u, d)⟩) ∧
      (linkPhase cfg st u d scraped).visited = st.visited ∧
      (linkPhase cfg st u d scraped).scrapedPages = st.scrapedPages ∧
      (linkPhase cfg st u d scraped).errors = st.errors ∧
      (linkPhase cfg st u d scraped).status = st.status ∧
      (linkPhase cfg st u d scraped).time = st.time ∧
      (linkPhase cfg st u d scraped).fetchedTrace = st.fetchedTrace ∧
      (linkPhase cfg st u d scraped).pagesChecked = st.pagesChecked ∧
      (linkPhase cfg st u d scraped).persisted = st.persisted ∧
      (as = [] ∨ d < cfg.maxDepth) := by
  unfold linkPhase
  by_cases hd : d < cfg.maxDepth
  · rw [if_pos hd]
    rcases scraped with page | msg
    all_goals dsimp only
    · by_cases hp : page.rawHtml ≠ ""
      · rw [if_pos hp]
        obtain ⟨as, h1, h2, h3, h4, h5, h6, h7, h8, h9, h10⟩ :=
          enqueueLinks_spec u d (extract_links_from_html page.anchors u) st
        exact ⟨as, h1, h2, h3, h4, h5, h6, h7, h8, h9, h10, Or.inr hd⟩
      · rw [if_neg hp]
        exact ⟨[], by simp⟩
    · exact ⟨[], by simp⟩
  · rw [if_neg hd]
    exact ⟨[], by simp⟩

theorem processPage_spec (cfg : EngineConfig) (st : EngineState) (u : String) (d : Nat) :
    ∃ as : List String,
      (processPage cfg st u d).queue = st.queue ++ as.map (fun v => (v, d + 1)) ∧
      (processPage cfg st u d).enqueueTrace =
        st.enqueueTrace ++ as.map (fun v => ⟨v, d + 1, some (u, d)⟩) ∧
      (processPage cfg st u d).visited = st.visited ∧
      (processPage cfg st u d).errors = st.errors ∧
      (processPage cfg st u d).status = st.status ∧
      (processPage cfg st u d).time = st.time ∧
      (processPage cfg st u d).persisted = st.persisted ∧
      (processPage cfg st u d).pagesChecked = st.pagesChecked ∧
      (processPage cfg st u d).fetchedTrace = st.fetchedTrace ++ [(u, d)] ∧
      ((processPage cfg st u d).scrapedPages = st.scrapedPages ∨
        (processPage cfg st u d).scrapedPages = st.scrapedPages ++ [u]) ∧
      (cfg.searchKeywords = [] →
        (processPage cfg st u d).scrapedPages = st.scrapedPages ++ [u]) ∧
      (as = [] ∨ d < cfg.maxDepth) := by
  unfold processPage
  simp only []
  obtain ⟨hkq, hkv, hksp, hke, hkpc, hkst, hkt, hkft, hket, hkper⟩ := keywordPhase_frame cfg st u
  obtain ⟨as, h1, h2, h3, h4, h5, h6, h7, h8, h9, h10, h11⟩ :=
    linkPhase_spec cfg
      { (keywordPhase cfg st u).1 with
        requests := (keywordPhase cfg st u).1.requests ++ [u],
        fetchedTrace := (keywordPhase cfg st u).1.fetchedTrace ++ [(u, d)] }
      u d (cfg.scrapeWeb u)
    -- names: h1 queue, h2 trace, h3 visited, h4 scraped, h5 errors, h6 status,
    -- h7 time, h8 fetched, h9 pagesChecked, h10 persisted, h11 depth cond
  refine ⟨as, ?_, ?_, ?_, ?_, ?_, ?_, ?_, ?_, ?_, ?_, ?_, h11⟩
  all_goals (
    split <;>
    simp_all)
  · intro hnil
    have := keywordPhase_store_of_no_keywords cfg st u hnil
    simp_all

/-! ## The crawl-loop invariant -/

/-- Inductive invariant of the crawl loop: the processed trace has no
duplicate URL and every processed page is visited, same-host and within
the depth budget; every enqueue event respects the depth rule; the error
list is exactly the pre-loop list; and with an empty keyword list every
processed page was stored. -/
structure LoopInv (cfg : EngineConfig) (baseDomain : String) (E0 : List String)
    (st : EngineState) : Prop where
  traceNodup : (st.fetchedTrace.map Prod.fst).Nodup
  fetchedVisited : ∀ p ∈ st.fetchedTrace, p.1 ∈ st.visited
  fetchedDomain : ∀ p ∈ st.fetchedTrace, netloc p.1 = baseDomain
  fetchedDepth : ∀ p ∈ st.fetchedTrace, p.2 ≤ cfg.maxDepth
  enqDepth : ∀ e ∈ st.enqueueTrace, e.depth ≤ cfg.maxDepth
  enqParent : ∀ e ∈ st.enqueueTrace, ∀ pu pd, e.parent = some (pu, pd) →
    e.depth = pd + 1 ∧ pd < cfg.maxDepth
  queueDepth : ∀ q ∈ st.queue, q.2 ≤ cfg.maxDepth
  errorsEq : st.errors = E0
  statusOk : st.status ≠ Status.error
  scrapedAll : cfg.searchKeywords = [] → st.scrapedPages = st.fetchedTrace.map Prod.fst

/-- What the crawl loop guarantees about any state it returns: the
invariant, except that the interrupt message may have been appended to
the error list. -/
structure LoopOut (cfg : EngineConfig) (baseDomain : String) (E0 : List String)
    (st : EngineState) : Prop where
  traceNodup : (st.fetchedTrace.map Prod.fst).Nodup
  fetchedVisited : ∀ p ∈ st.fetchedTrace, p.1 ∈ st.visited
  fetchedDomain : ∀ p ∈ st.fetchedTrace, netloc p.1 = baseDomain
  fetchedDepth : ∀ p ∈ st.fetchedTrace, p.2 ≤ cfg.maxDepth
  enqDepth : ∀ e ∈ st.enqueueTrace, e.depth ≤ cfg.maxDepth
  enqParent : ∀ e ∈ st.enqueueTrace, ∀ pu pd, e.parent = some (pu, pd) →
    e.depth = pd + 1 ∧ pd < cfg.maxDepth
  queueDepth : ∀ q ∈ st.queue, q.2 ≤ cfg.maxDepth
  errorsOut : st.errors = E0 ∨ st.errors = E0 ++ [interruptErrorMsg]
  statusOk : st.status ≠ Status.error
  scrapedAll : cfg.searchKeywords = [] → st.scrapedPages = st.fetchedTrace.map Prod.fst

theorem LoopOut.of_inv {cfg : EngineConfig} {baseDomain : String} {E0 : List String}
    {st : EngineState} (h : LoopInv cfg baseDomain E0 st) : LoopOut cfg baseDomain E0 st :=
  ⟨h.traceNodup, h.fetchedVisited, h.fetchedDomain, h.fetchedDepth, h.enqDepth,
   h.enqParent, h.queueDepth, Or.inl h.errorsEq, h.statusOk, h.scrapedAll⟩

theorem LoopOut.finalize {cfg : EngineConfig} {baseDomain : String} {E0 : List String}
    {st : EngineState} (h : LoopOut cfg baseDomain E0 st) :
    LoopOut cfg baseDomain E0 (finalizeCompleted st) :=
  ⟨h.traceNodup, h.fetchedVisited, h.fetchedDomain, h.fetchedDepth, h.enqDepth,
   h.enqParent, h.queueDepth, h.errorsOut, by simp [finalizeCompleted], h.scrapedAll⟩

theorem LoopOut.handleIntr {cfg : EngineConfig} {baseDomain : String} {E0 : List String}
    {st : EngineState} (h : LoopOut cfg baseDomain E0 st) :
    LoopOut cfg baseDomain E0 (handleInterruption st) :=
  ⟨h.traceNodup, h.fetchedVisited, h.fetchedDomain, h.fetchedDepth, h.enqDepth,
   h.enqParent, h.queueDepth, h.errorsOut, by simp [handleInterruption], h.scrapedAll⟩

/-- The skip branches (already visited / foreign domain) preserve the
invariant: the queue shrinks, the flag-read counter advances. -/
theorem LoopInv.skip {cfg : EngineConfig} {baseDomain : String} {E0 : List String}
    {st : EngineState} (h : LoopInv cfg baseDomain E0 st) (u : String) (d : Nat)
    (rest : List (String × Nat)) (hq : st.queue = (u, d) :: rest) :
    LoopInv cfg baseDomain E0 { st with time := st.time + 1, queue := rest } := by
  refine ⟨h.traceNodup, h.fetchedVisited, h.fetchedDomain, h.fetchedDepth, h.enqDepth,
    h.enqParent, ?_, h.errorsEq, h.statusOk, h.scrapedAll⟩
  intro q hqm
  exact h.queueDepth q (by rw [hq]; exact List.mem_cons_of_mem _ hqm)

/-- Processing a freshly dequeued, unvisited, same-host page preserves
the invariant. -/
theorem LoopInv.process {cfg : EngineConfig} {baseDomain : String} {E0 : List String}
    {st : EngineState} (h : LoopInv cfg baseDomain E0 st) (u : String) (d : Nat)
    (rest : List (String × Nat)) (hq : st.queue = (u, d) :: rest)
    (hu : ¬ st.visited.contains u) (hdom : netloc u = baseDomain) :
    LoopInv cfg baseDomain E0
      (processPage cfg
        { st with time := st.time + 1, queue := rest,
                  visited := st.visited ++ [u], pagesChecked := st.pagesChecked + 1 } u d) := by
  have hdle : d ≤ cfg.maxDepth := h.queueDepth (u, d) (by rw [hq]; exact List.mem_cons_self _ _)
  have hunv : u ∉ st.visited := by simpa using hu
  obtain ⟨as, hq', ht', hv', he', hs', htime', hper', hpc', hft', hsp', hspk', hdep'⟩ :=
    processPage_spec cfg
      { st with time := st.time + 1, queue := rest,
                visited := st.visited ++ [u], pagesChecked := st.pagesChecked + 1 } u d
  have hdlt : ∀ v, v ∈ as → d < cfg.maxDepth := by
    intro v hv
    rcases hdep' with hnil | hlt
    · simp [hnil] at hv
    · exact hlt
  refine ⟨?_, ?_, ?_, ?_, ?_, ?_, ?_, ?_, ?_, ?_⟩
  · rw [hft']
    simp only [List.map_append, List.map_cons, List.map_nil]
    rw [List.nodup_append]
    refine ⟨h.traceNodup, List.nodup_singleton _, ?_⟩
    intro a ha hb
    simp only [List.mem_singleton] at hb
    subst hb
    obtain ⟨⟨p1, p2⟩, hp, hfst⟩ := List.mem_map.mp ha
    exact hunv (hfst ▸ h.fetchedVisited _ hp)
  · intro p hp
    rw [hft'] at hp
    rw [hv']
    rcases List.mem_append.mp hp with hold | hnew
    · exact List.mem_append_left _ (h.fetchedVisited p hold)
    · simp only [List.mem_singleton] at hnew
      subst hnew
      simp
  · intro p hp
    rw [hft'] at hp
    rcases List.mem_append.mp hp with hold | hnew
    · exact h.fetchedDomain p hold
    · simp only [List.mem_singleton] at hnew
      subst hnew
      exact hdom
  · intro p hp
    rw [hft'] at hp
    rcases List.mem_append.mp hp with hold | hnew
    · exact h.fetchedDepth p hold
    · simp only [List.mem_singleton] at hnew
      subst hnew
      exact hdle
  · intro e he
    rw [ht'] at he
    rcases List.mem_append.mp he with hold | hnew
    · exact h.enqDepth e hold
    · obtain ⟨v, hvm, hve⟩ := List.mem_map.mp hnew
      subst hve
      exact hdlt v hvm
  · intro e he pu pd hpar
    rw [ht'] at he
    rcases List.mem_append.mp he with hold | hnew
    · exact h.enqParent e hold pu pd hpar
    · obtain ⟨v, hvm, hve⟩ := List.mem_map.mp hnew
      subst hve
      simp only [EnqueueEvent.mk.injEq] at hpar ⊢
      cases hpar
      exact ⟨rfl, hdlt v hvm⟩
  · intro q hqm
    rw [hq'] at hqm
    rcases List.mem_append.mp hqm with hold | hnew
    · exact h.queueDepth q (by rw [hq]; exact List.mem_cons_of_mem _ hold)
    · obtain ⟨v, hvm, hve⟩ := List.mem_map.mp hnew
      subst hve
      exact hdlt v hvm
  · rw [he']
    exact h.errorsEq
  · rw [hs']
    exact h.statusOk
  · intro hkw
    rw [hspk' hkw, hft']
    simp [h.scrapedAll hkw]

/-- Advancing the interrupt-read counter does not affect the invariant. -/
theorem LoopInv.bumpTime {cfg : EngineConfig} {baseDomain : String} {E0 : List String}
    {st : EngineState} (h : LoopInv cfg baseDomain E0 st) :
    LoopInv cfg baseDomain E0 { st with time := st.time + 1 } :=
  ⟨h.traceNodup, h.fetchedVisited, h.fetchedDomain, h.fetchedDepth, h.enqDepth,
   h.enqParent, h.queueDepth, h.errorsEq, h.statusOk, h.scrapedAll⟩

/-- The interrupt break (lines 737-756) followed by the completion block
yields a state satisfying the loop guarantee. -/
theorem LoopOut.interruptBreak {cfg : EngineConfig} {baseDomain : String} {E0 : List String}
    {st : EngineState} (h : LoopInv cfg baseDomain E0 st) :
    LoopOut cfg baseDomain E0
      (finalizeCompleted
        { st with time := st.time + 1, status := Status.interrupted,
                  errors := st.errors ++ [interruptErrorMsg],
                  persisted := st.persisted ++ [Status.interrupted] }) := by
  refine LoopOut.finalize ⟨h.traceNodup, h.fetchedVisited, h.fetchedDomain, h.fetchedDepth,
    h.enqDepth, h.enqParent, h.queueDepth, ?_, ?_, h.scrapedAll⟩
  · exact Or.inr (by rw [h.errorsEq])
  · simp

/-- Every state the crawl loop can return from an invariant-satisfying
state satisfies the loop guarantee, whatever the fuel. -/
theorem runLoop_out (cfg : EngineConfig) (baseDomain : String) (E0 : List String) :
    ∀ (fuel : Nat) (st : EngineState), LoopInv cfg baseDomain E0 st →
      LoopOut cfg baseDomain E0 (runLoop cfg baseDomain fuel st) := by
  intro fuel
  induction fuel with
  | zero =>
    intro st h
    exact LoopOut.of_inv h
  | succ n ih =>
    intro st h
    rw [runLoop]
    cases hq : st.queue with
    | nil => exact (LoopOut.of_inv h).finalize
    | cons hd rest =>
      obtain ⟨u, d⟩ := hd
      dsimp only
      by_cases hintr : cfg.interrupt st.time
      · rw [if_pos hintr, ← hq]
        exact LoopOut.interruptBreak h
      · rw [if_neg hintr]
        by_cases hv : st.visited.contains u
        · rw [if_pos hv]
          exact ih _ (h.skip u d rest hq)
        · rw [if_neg hv]
          by_cases hdom : netloc u = baseDomain
          · rw [if_neg (by simpa using hdom)]
            have hP := (h.process u d rest hq hv hdom).bumpTime
            by_cases hintr2 : cfg.interrupt
                (processPage cfg
                  { st with time := st.time + 1, queue := rest,
                            visited := st.visited ++ [u],
                            pagesChecked := st.pagesChecked + 1 } u d).time
            · rw [if_pos hintr2]
              exact (LoopOut.of_inv hP).handleIntr
            · rw [if_neg hintr2]
              exact ih _ hP
          · rw [if_pos (by simpa using hdom)]
            exact ih _ (h.skip u d rest hq)

theorem queueSitemapPages_cons (st : EngineState) (p : String) (ps : List String) :
    queueSitemapPages st (p :: ps) =
      if st.visited.contains p then queueSitemapPages st ps
      else
        queueSitemapPages
          { st with queue := st.queue ++ [(p, 0)],
                    enqueueTrace := st.enqueueTrace ++ [⟨p, 0, none⟩] } ps := by
  simp only [queueSitemapPages, pyFold, List.foldl_cons]
  split <;> rfl

theorem queueSitemapPages_spec (sitemapPages : List String) :
    ∀ st : EngineState, ∃ ps : List String,
      (queueSitemapPages st sitemapPages).queue = st.queue ++ ps.map (fun p => (p, 0)) ∧
      (queueSitemapPages st sitemapPages).enqueueTrace =
        st.enqueueTrace ++ ps.map (fun p => ⟨p, 0, none⟩) ∧
      (queueSitemapPages st sitemapPages).visited = st.visited ∧
      (queueSitemapPages st sitemapPages).errors = st.errors ∧
      (queueSitemapPages st sitemapPages).status = st.status ∧
      (queueSitemapPages st sitemapPages).fetchedTrace = st.fetchedTrace ∧
      (queueSitemapPages st sitemapPages).scrapedPages = st.scrapedPages := by
  induction sitemapPages with
  | nil =>
    intro st
    exact ⟨[], by simp [queueSitemapPages, pyFold]⟩
  | cons p ps ih =>
    intro st
    by_cases h : st.visited.contains p
    · rw [queueSitemapPages_cons, if_pos h]
      exact ih st
    · rw [queueSitemapPages_cons, if_neg h]
      obtain ⟨qs, h1, h2, h3, h4, h5, h6, h7⟩ :=
        ih { st with queue := st.queue ++ [(p, 0)],
                     enqueueTrace := st.enqueueTrace ++ [⟨p, 0, none⟩] }
      exact ⟨p :: qs, by simpa using h1, by simpa using h2, h3, h4, h5, h6, h7⟩

/-- The state entering the crawl loop — seed plus sitemap pages, all at
depth 0 — satisfies the loop invariant. -/
theorem seedState_inv (cfg : EngineConfig) (url : String)
    (sitemapPages initErrors : List String) :
    LoopInv cfg (netloc url) initErrors
      (queueSitemapPages
        { queue := [(url, 0)], errors := initErrors, enqueueTrace := [⟨url, 0, none⟩] }
        sitemapPages) := by
  obtain ⟨ps, h1, h2, h3, h4, h5, h6, h7⟩ :=
    queueSitemapPages_spec sitemapPages
      { queue := [(url, 0)], errors := initErrors, enqueueTrace := [⟨url, 0, none⟩] }
  refine ⟨?_, ?_, ?_, ?_, ?_, ?_, ?_, ?_, ?_, ?_⟩
  · rw [h6]; simp
  · rw [h6]; simp
  · rw [h6]; simp
  · rw [h6]; simp
  · intro e he
    rw [h2] at he
    rcases List.mem_append.mp he with hseed | hnew
    · simp only [List.mem_singleton] at hseed
      subst hseed
      exact Nat.zero_le _
    · obtain ⟨p, _, hpe⟩ := List.mem_map.mp hnew
      subst hpe
      exact Nat.zero_le _
  · intro e he pu pd hpar
    rw [h2] at he
    rcases List.mem_append.mp he with hseed | hnew
    · simp only [List.mem_singleton] at hseed
      subst hseed
      simp at hpar
    · obtain ⟨p, _, hpe⟩ := List.mem_map.mp hnew
      subst hpe
      simp at hpar
  · intro q hq
    rw [h1] at hq
    rcases List.mem_append.mp hq with hseed | hnew
    · simp only [List.mem_singleton] at hseed
      subst hseed
      exact Nat.zero_le _
    · obtain ⟨p, _, hpe⟩ := List.mem_map.mp hnew
      subst hpe
      exact Nat.zero_le _
  · rw [h4]
  · rw [h5]
    simp
  · intro _
    rw [h7, h6]
    simp

/-- The crawl loop's guarantees hold of every `run_extraction_thread`
result, for any fuel. -/
theorem run_extraction_out (pages_limit : Nat) (cfg : EngineConfig) (url : String)
    (sitemapPages initErrors : List String) (fuel : Nat) :
    LoopOut cfg (netloc url) initErrors
      (run_extraction_thread pages_limit cfg url sitemapPages initErrors fuel) :=
  runLoop_out cfg (netloc url) initErrors fuel _
    (seedState_inv cfg url sitemapPages initErrors)

/-! ## Behaviour of the content filter on an empty keyword list -/

/-- The match evidence of a keyword-scan state: everything except the
harvested `meta_info`. -/
def kwFlags (st : KwState) : Bool × List String × List (String × String) :=
  (st.containsKeywords, st.foundKeywords, st.keywordContexts)

theorem foldl_preserves_kwFlags {α : Type} (f : KwState → α → KwState)
    (hf : ∀ st a, kwFlags (f st a) = kwFlags st) :
    ∀ (l : List α) (st : KwState), kwFlags (pyFold l st f) = kwFlags st := by
  intro l
  induction l with
  | nil => intro st; rfl
  | cons a as ih =>
    intro st
    rw [show pyFold (a :: as) st f = pyFold as (f st a) f from rfl, ih, hf]

theorem kwScanImages_nil (alts : List String) : ∀ st : KwState, kwScanImages alts [] st = st := by
  induction alts with
  | nil => intro st; rfl
  | cons a as ih => intro st; exact ih st

theorem kwScanCards_nil (cards : List CardEl) : ∀ st : KwState, kwScanCards cards [] st = st := by
  induction cards with
  | nil => intro st; rfl
  | cons c cs ih => intro st; exact ih st

theorem kwScanMeta_nil_flags (page : PageData) (st : KwState) :
    kwFlags (kwScanMeta page [] st) = kwFlags st := by
  unfold kwScanMeta
  rw [foldl_preserves_kwFlags, foldl_preserves_kwFlags]
  · cases page.title <;> rfl
  · intro st tag
    dsimp only
    split
    · rfl
    · rfl
  · intro st tag
    dsimp only
    split
    · rfl
    · rfl

/-- `check_page_for_keywords` with an empty keyword list never reports a
match: it returns `contains_keywords = False` (not `True`), with no
found keywords and no contexts, both on a successful fetch and in the
exception branch. -/
theorem check_page_for_keywords_nil (web : String → FetchResult) (url : String) (im : Bool) :
    (check_page_for_keywords web url [] im).containsKeywords = false ∧
    (check_page_for_keywords web url [] im).foundKeywords = [] ∧
    (check_page_for_keywords web url [] im).keywordContexts = [] := by
  unfold check_page_for_keywords
  cases web url with
  | fail msg => exact ⟨rfl, rfl, rfl⟩
  | ok page =>
    dsimp only
    rw [show kwScanText (toLowerStr page.text) [] ⟨false, [], [], []⟩ =
          (⟨false, [], [], []⟩ : KwState) from rfl,
        kwScanImages_nil, kwScanCards_nil]
    cases im with
    | false => exact ⟨rfl, rfl, rfl⟩
    | true =>
      have h := kwScanMeta_nil_flags page ⟨false, [], [], []⟩
      unfold kwFlags at h
      simp only [Prod.mk.injEq] at h
      exact ⟨h.1, h.2.1, h.2.2⟩

/-- Every extracted link not yet in the visited set really lands on the
queue, at `depth + 1`. -/
theorem enqueueLinks_mem (u : String) (d : Nat) (links : List String) :
    ∀ (st : EngineState) (link : String), link ∈ links → ¬ st.visited.contains link →
      (link, d + 1) ∈ (enqueueLinks u d st links).queue := by
  induction links with
  | nil =>
    intro st link hmem
    simp at hmem
  | cons l ls ih =>
    intro st link hmem hnv
    rw [enqueueLinks_cons]
    by_cases h : st.visited.contains l
    · rw [if_pos h]
      rcases List.mem_cons.mp hmem with heq | hmem'
      · subst heq
        exact absurd h hnv
      · exact ih st link hmem' hnv
    · rw [if_neg h]
      rcases List.mem_cons.mp hmem with heq | hmem'
      · subst heq
        obtain ⟨as, hq, -⟩ := enqueueLinks_spec u d ls
          { st with queue := st.queue ++ [(link, d + 1)],
                    enqueueTrace := st.enqueueTrace ++ [⟨link, d + 1, some (u, d)⟩] }
        rw [hq]
        exact List.mem_append_left _ (by simp)
      · exact ih _ link hmem' (by simpa using hnv)

/-! ## Pagination-loop invariant (dynamic scraper) -/

/-- Invariant of the pagination loop: every scraped page went through
the processed set, and no page was scraped twice. -/
structure DynInv (st : DynState) : Prop where
  traceNodup : st.trace.Nodup
  traceProcessed : ∀ u ∈ st.trace, u ∈ st.processed

theorem dynLoop_inv (web : String → Option DynPage) (hasSelector : Bool) (maxPages : Nat) :
    ∀ (fuel : Nat) (st : DynState), DynInv st → DynInv (dynLoop web hasSelector maxPages fuel st) := by
  intro fuel
  induction fuel with
  | zero => intro st h; exact h
  | succ n ih =>
    intro st h
    rw [dynLoop]
    cases hcur : st.current with
    | none => exact ⟨h.traceNodup, h.traceProcessed⟩
    | some cur =>
      dsimp only
      by_cases hp : st.pagesScraped < maxPages
      · rw [if_pos hp]
        by_cases hdone : st.processed.contains cur
        · rw [if_pos hdone]
          exact ⟨h.traceNodup, h.traceProcessed⟩
        · rw [if_neg hdone]
          have hcurnv : cur ∉ st.processed := by simpa using hdone
          cases hw : web cur with
          | none =>
            apply ih
            refine ⟨h.traceNodup, ?_⟩
            intro v hv
            exact List.mem_append_left _ (h.traceProcessed v hv)
          | some page =>
            apply ih
            refine ⟨?_, ?_⟩
            · rw [List.nodup_append]
              refine ⟨h.traceNodup, List.nodup_singleton _, ?_⟩
              intro a ha hb
              simp only [List.mem_singleton] at hb
              subst hb
              exact hcurnv (h.traceProcessed a ha)
            · intro v hv
              rcases List.mem_append.mp hv with hold | hnew
              · exact List.mem_append_left _ (h.traceProcessed v hold)
              · simp only [List.mem_singleton] at hnew
                subst hnew
                simp
      · rw [if_neg hp]
        exact ⟨h.traceNodup, h.traceProcessed⟩

/-! ## Concrete fixtures

A miniature site on host `a.com`: the seed and the extra sitemap page
`/x` both link to `/b`; `/b` has no links. -/

/-- Network oracle for the miniature site. -/
def webA : String → FetchResult := fun u =>
  if u = "http://a.com/" then .ok { rawHtml := "<a href=/b>", anchors := ["/b"] }
  else if u = "http://a.com/x" then .ok { rawHtml := "<a href=/b>", anchors := ["/b"] }
  else if u = "http://a.com/b" then .ok { rawHtml := "<p>b</p>", anchors := [] }
  else .fail "404"

/-- A job on the miniature site with no keyword filter. -/
def cfgNoKw : EngineConfig :=
  { kwWeb := webA, scrapeWeb := webA, interrupt := fun _ => false,
    searchKeywords := [], includeMeta := true, maxDepth := 3 }

/-- The same job with one (never-matching) keyword. -/
def cfgKw : EngineConfig :=
  { cfgNoKw with searchKeywords := ["k"] }

/-- The same job with the interrupt flag already set when the loop
starts. -/
def cfgIntr : EngineConfig :=
  { cfgNoKw with interrupt := fun _ => true }

/-- A job whose every fetch raises (connection failure). -/
def cfgFail : EngineConfig :=
  { cfgNoKw with kwWeb := fun _ => .fail "ConnectionError",
                 scrapeWeb := fun _ => .fail "ConnectionError" }

/-- A job whose keyword-check fetches time out while the scrape fetches
succeed (the two requests are independent). -/
def cfgKwFail : EngineConfig :=
  { cfgNoKw with kwWeb := fun _ => .fail "ReadTimeout", searchKeywords := ["intern"] }

/-! ## Claim theorems -/

/-- **C1** (counterexample): with a non-empty keyword list the claim "no
URL's page content is requested twice within one job's crawl loop" fails:
processing the seed issues one request from `check_page_for_keywords`
(line 149) and a second from `scrape_website` (site.py line 32), so the
seed URL is requested twice. -/
theorem url_requested_twice_with_keywords :
    (run_extraction_thread 0 cfgKw "http://a.com/" [] [] 10).requests.count "http://a.com/" =
      2 := by decide

/-- **C1** (amended): each URL is dequeued-and-processed at most once per
job — a dequeued URL already in the visited set is skipped without
processing, and a processed URL enters the visited set first — though a
single processing may issue two requests for it when keyword filtering is
on. -/
theorem each_url_processed_at_most_once (pages_limit : Nat) (cfg : EngineConfig)
    (url : String) (sitemapPages initErrors : List String) (fuel : Nat) :
    ((run_extraction_thread pages_limit cfg url sitemapPages initErrors
      fuel).fetchedTrace.map Prod.fst).Nodup :=
  (run_extraction_out pages_limit cfg url sitemapPages initErrors fuel).traceNodup

/-- **C2** (counterexample): the visited set is *not* updated at enqueue
time, so a URL discovered from two source pages before its first dequeue
is enqueued twice: `/b`, linked from both the seed and the sitemap page
`/x`, receives two enqueue events. -/
theorem duplicate_enqueue_from_two_sources :
    ((run_extraction_thread 0 cfgNoKw "http://a.com/" ["http://a.com/x"] []
      10).enqueueTrace.countP (fun e => e.url = "http://a.com/b")) = 2 := by decide

/-- **C2** (amended): the visited-set insertion happens at dequeue time,
not enqueue time; duplicate enqueues of one URL are possible, but the
dequeue-time visited check still guarantees the URL is fetched at most
once in total. -/
theorem url_fetched_once_despite_duplicate_enqueues (pages_limit : Nat) (cfg : EngineConfig)
    (url : String) (sitemapPages initErrors : List String) (fuel : Nat) (u : String) :
    ((run_extraction_thread pages_limit cfg url sitemapPages initErrors
      fuel).fetchedTrace.map Prod.fst).count u ≤ 1 :=
  List.nodup_iff_count_le_one.mp
    (run_extraction_out pages_limit cfg url sitemapPages initErrors fuel).traceNodup u

/-- **C3**: when the interrupt flag is observed at the pre-dequeue check,
the code persists `interrupted`, breaks — and then the post-loop
completion block persists `completed` over it: with the flag set from the
start the job processes no page but ends with status `completed`, its
persisted status history being `[interrupted, completed]`, contradicting
the claim (and lines 739/755 of the source itself) that the job ends
`interrupted`. -/
theorem interrupted_status_overwritten_by_completion :
    (run_extraction_thread 0 cfgIntr "http://a.com/" [] [] 10).status = Status.completed ∧
    (run_extraction_thread 0 cfgIntr "http://a.com/" [] [] 10).persisted =
      [Status.interrupted, Status.completed] ∧
    (run_extraction_thread 0 cfgIntr "http://a.com/" [] [] 10).fetchedTrace = [] := by decide

/-- **C4**: every enqueue event stays within the depth budget, and every
child enqueued from a page at depth `d` is enqueued at depth exactly
`d + 1` with `d < max_depth`. -/
theorem child_depth_parent_plus_one_and_bounded (pages_limit : Nat) (cfg : EngineConfig)
    (url : String) (sitemapPages initErrors : List String) (fuel : Nat) (e : EnqueueEvent)
    (he : e ∈ (run_extraction_thread pages_limit cfg url sitemapPages initErrors
      fuel).enqueueTrace) :
    e.depth ≤ cfg.maxDepth ∧
    ∀ pu pd, e.parent = some (pu, pd) → e.depth = pd + 1 ∧ pd < cfg.maxDepth :=
  ⟨(run_extraction_out pages_limit cfg url sitemapPages initErrors fuel).enqDepth e he,
   (run_extraction_out pages_limit cfg url sitemapPages initErrors fuel).enqParent e he⟩

theorem child_depth_parent_plus_one_and_bounded_witness :
    (⟨"http://a.com/b", 1, some ("http://a.com/", 0)⟩ : EnqueueEvent) ∈
      (run_extraction_thread 0 cfgNoKw "http://a.com/" [] [] 10).enqueueTrace ∧
    ((⟨"http://a.com/b", 1, some ("http://a.com/", 0)⟩ : EnqueueEvent).depth ≤
        cfgNoKw.maxDepth ∧
      ∀ pu pd, (⟨"http://a.com/b", 1, some ("http://a.com/", 0)⟩ : EnqueueEvent).parent =
          some (pu, pd) →
        (⟨"http://a.com/b", 1, some ("http://a.com/", 0)⟩ : EnqueueEvent).depth = pd + 1 ∧
          pd < cfgNoKw.maxDepth) :=
  ⟨by decide,
   child_depth_parent_plus_one_and_bounded 0 cfgNoKw "http://a.com/" [] [] 10 _ (by decide)⟩

/-- **C5** (counterexample): sitemap-derived entries are enqueued with no
domain check (lines 719-721), so an off-domain URL listed by the sitemap
is placed on the work queue. -/
theorem offdomain_sitemap_page_enqueued :
    (⟨"http://evil.com/page", 0, none⟩ : EnqueueEvent) ∈
      (run_extraction_thread 0 cfgNoKw "http://a.com/" ["http://evil.com/page"] []
        10).enqueueTrace ∧
    netloc "http://evil.com/page" ≠ netloc "http://a.com/" := by decide

/-- **C5** (amended): the same-domain policy is enforced at dequeue time
(lines 764-767), so every page actually fetched has the seed's host even
though off-domain sitemap entries can sit on the queue. -/
theorem fetched_page_host_equals_seed_host (pages_limit : Nat) (cfg : EngineConfig)
    (url : String) (sitemapPages initErrors : List String) (fuel : Nat) (p : String × Nat)
    (hp : p ∈ (run_extraction_thread pages_limit cfg url sitemapPages initErrors
      fuel).fetchedTrace) :
    netloc p.1 = netloc url :=
  (run_extraction_out pages_limit cfg url sitemapPages initErrors fuel).fetchedDomain p hp

theorem fetched_page_host_equals_seed_host_witness :
    ("http://a.com/", 0) ∈
      (run_extraction_thread 0 cfgNoKw "http://a.com/" [] [] 10).fetchedTrace ∧
    netloc ("http://a.com/", 0).1 = netloc "http://a.com/" :=
  ⟨by decide,
   fetched_page_host_equals_seed_host 0 cfgNoKw "http://a.com/" [] [] 10 _ (by decide)⟩

/-- **C6** (counterexample): `scrape_website` never raises — a seed fetch
failure returns an error record — so the job whose seed cannot be fetched
still processes the seed, stores the error record, appends nothing to the
error list, and ends `completed`, not `error`. -/
theorem seed_fetch_failure_job_completes :
    (run_extraction_thread 0 cfgFail "http://a.com/" [] [] 10).status = Status.completed ∧
    (run_extraction_thread 0 cfgFail "http://a.com/" [] [] 10).errors = [] ∧
    (run_extraction_thread 0 cfgFail "http://a.com/" [] [] 10).fetchedTrace =
      [("http://a.com/", 0)] ∧
    (run_extraction_thread 0 cfgFail "http://a.com/" [] [] 10).scrapedPages =
      ["http://a.com/"] := by decide

/-- **C6** (amended): a fetch failure — on the seed or any other page —
never raises out of the loop body, never reaches `error` status and never
appends to the job's error list; the only loop-added error entry is the
interrupt message. -/
theorem fetch_failure_never_sets_error_status (pages_limit : Nat) (cfg : EngineConfig)
    (url : String) (sitemapPages initErrors : List String) (fuel : Nat) :
    (run_extraction_thread pages_limit cfg url sitemapPages initErrors fuel).status ≠
      Status.error ∧
    ((run_extraction_thread pages_limit cfg url sitemapPages initErrors fuel).errors =
        initErrors ∨
      (run_extraction_thread pages_limit cfg url sitemapPages initErrors fuel).errors =
        initErrors ++ [interruptErrorMsg]) :=
  ⟨(run_extraction_out pages_limit cfg url sitemapPages initErrors fuel).statusOk,
   (run_extraction_out pages_limit cfg url sitemapPages initErrors fuel).errorsOut⟩

/-- **C7** (counterexample): `check_page_for_keywords` with an empty
keyword list returns `matched = false`, not `true`: no loop body ever
sets `contains_keywords`. -/
theorem empty_keyword_filter_returns_false :
    (check_page_for_keywords webA "http://a.com/" [] true).containsKeywords = false := by
  decide

/-- **C7** (amended): the filter itself reports `matched = false` (with
no keywords and no contexts) on an empty keyword list, but the engine
never calls it then — `should_store` stays true (lines 778-779) — so
every processed page is retained. -/
theorem empty_keyword_list_retains_every_page (web : String → FetchResult) (u : String)
    (im : Bool) (pages_limit : Nat) (cfg : EngineConfig) (url : String)
    (sitemapPages initErrors : List String) (fuel : Nat)
    (hkw : cfg.searchKeywords = []) :
    (check_page_for_keywords web u [] im).containsKeywords = false ∧
    (check_page_for_keywords web u [] im).foundKeywords = [] ∧
    (check_page_for_keywords web u [] im).keywordContexts = [] ∧
    (run_extraction_thread pages_limit cfg url sitemapPages initErrors fuel).scrapedPages =
      ((run_extraction_thread pages_limit cfg url sitemapPages initErrors
        fuel).fetchedTrace.map Prod.fst) := by
  obtain ⟨h1, h2, h3⟩ := check_page_for_keywords_nil web u im
  exact ⟨h1, h2, h3,
    (run_extraction_out pages_limit cfg url sitemapPages initErrors fuel).scrapedAll hkw⟩

theorem empty_keyword_list_retains_every_page_witness :
    cfgNoKw.searchKeywords = [] ∧
    ((check_page_for_keywords webA "http://a.com/" [] true).containsKeywords = false ∧
      (check_page_for_keywords webA "http://a.com/" [] true).foundKeywords = [] ∧
      (check_page_for_keywords webA "http://a.com/" [] true).keywordContexts = [] ∧
      (run_extraction_thread 0 cfgNoKw "http://a.com/" [] [] 10).scrapedPages =
        ((run_extraction_thread 0 cfgNoKw "http://a.com/" [] [] 10).fetchedTrace.map
          Prod.fst)) :=
  ⟨by decide,
   empty_keyword_list_retains_every_page webA "http://a.com/" true 0 cfgNoKw "http://a.com/"
     [] [] 10 (by decide)⟩

/-- **C8** (counterexample): the selector path of the pagination resolver
returns the current URL itself: a pagination element `<a href="">Next</a>`
matches the next-vocabulary, and `make_absolute_url('', current)` is
`current` — `find_next_page_link` consults neither `currentURL` nor the
processed set in its first three priorities. -/
theorem pagination_selector_returns_current_url :
    find_next_page_link [{ name := "a", text := "Next", href := some "" }]
      "http://x.com/p/1" = some "http://x.com/p/1" := by decide

/-- **C8** (amended): `find_next_page_link` may return the current URL or
a processed URL (the heuristic numbered-page branch is also unguarded),
but the caller re-checks both and the loop-top processed check breaks on
repetition, so the pagination loop never scrapes a URL twice. -/
theorem pagination_loop_never_rescrapes (web : String → Option DynPage)
    (hasSelector : Bool) (url : String) (fuel : Nat) :
    (run_dynamic_scraper web hasSelector url fuel).trace.Nodup :=
  (dynLoop_inv web hasSelector 50 fuel { current := some url }
    ⟨List.nodup_nil, by simp⟩).traceNodup

/-- **C9** (counterexample): a job run with `pages_limit = 1` still
fetches two pages — the crawl loop never consults the page limit. -/
theorem pages_limit_one_fetches_two :
    (run_extraction_thread 1 cfgNoKw "http://a.com/" [] [] 10).fetchedTrace.length = 2 ∧
    ¬ ((run_extraction_thread 1 cfgNoKw "http://a.com/" [] []
      10).fetchedTrace.length ≤ 1) := by decide

/-- **C9** (amended): the crawl loop ignores `pages_limit` entirely (and
`add_project_with_scraping` forces it to 0): runs with different limits
are identical states. -/
theorem pages_limit_parameter_unused (p q : Nat) (cfg : EngineConfig) (url : String)
    (sitemapPages initErrors : List String) (fuel : Nat) :
    run_extraction_thread p cfg url sitemapPages initErrors fuel =
      run_extraction_thread q cfg url sitemapPages initErrors fuel := rfl

/-- **C10**: if the keyword-check fetch raises, the filter returns
`(False, [], {}, {})`; the page is then not stored and nothing is added
to the job's error list, yet its links are still extracted and enqueued
at `depth + 1`. -/
theorem keyword_check_failure_not_stored_still_crawled (cfg : EngineConfig)
    (st : EngineState) (u : String) (d : Nat) (msg : String) (page : PageData)
    (hkw : cfg.searchKeywords ≠ [])
    (hfail : cfg.kwWeb u = .fail msg)
    (hok : cfg.scrapeWeb u = .ok page)
    (hraw : page.rawHtml ≠ "")
    (hd : d < cfg.maxDepth) :
    check_page_for_keywords cfg.kwWeb u cfg.searchKeywords cfg.includeMeta =
      ⟨false, [], [], []⟩ ∧
    (processPage cfg st u d).scrapedPages = st.scrapedPages ∧
    (processPage cfg st u d).errors = st.errors ∧
    ∀ link ∈ extract_links_from_html page.anchors u, ¬ st.visited.contains link →
      (link, d + 1) ∈ (processPage cfg st u d).queue := by
  have hcheck : check_page_for_keywords cfg.kwWeb u cfg.searchKeywords cfg.includeMeta =
      ⟨false, [], [], []⟩ := by
    unfold check_page_for_keywords
    rw [hfail]
  have hkp : keywordPhase cfg st u = ({ st with requests := st.requests ++ [u] }, false) := by
    unfold keywordPhase
    rw [if_pos hkw, hcheck]
    simp
  have hpp : processPage cfg st u d =
      enqueueLinks u d
        { st with requests := st.requests ++ [u] ++ [u],
                  fetchedTrace := st.fetchedTrace ++ [(u, d)] }
        (extract_links_from_html page.anchors u) := by
    unfold processPage
    rw [hkp]
    dsimp only
    rw [hok]
    unfold linkPhase
    rw [if_pos hd]
    dsimp only
    rw [if_pos hraw]
    rfl
  obtain ⟨as, hq, ht, hv, hsp, he, hs, hti, hft, hpc, hper⟩ :=
    enqueueLinks_spec u d (extract_links_from_html page.anchors u)
      { st with requests := st.requests ++ [u] ++ [u],
                fetchedTrace := st.fetchedTrace ++ [(u, d)] }
  refine ⟨hcheck, ?_, ?_, ?_⟩
  · rw [hpp, hsp]
  · rw [hpp, he]
  · intro link hmem hnv
    rw [hpp]
    exact enqueueLinks_mem u d (extract_links_from_html page.anchors u) _ link hmem
      (by simpa using hnv)

theorem keyword_check_failure_not_stored_still_crawled_witness :
    (cfgKwFail.searchKeywords ≠ [] ∧ cfgKwFail.kwWeb "http://a.com/" = .fail "ReadTimeout" ∧
      cfgKwFail.scrapeWeb "http://a.com/" =
        .ok { rawHtml := "<a href=/b>", anchors := ["/b"] } ∧
      0 < cfgKwFail.maxDepth) ∧
    (check_page_for_keywords cfgKwFail.kwWeb "http://a.com/" cfgKwFail.searchKeywords
        cfgKwFail.includeMeta = ⟨false, [], [], []⟩ ∧
      (processPage cfgKwFail {} "http://a.com/" 0).scrapedPages = ({} : EngineState).scrapedPages ∧
      (processPage cfgKwFail {} "http://a.com/" 0).errors = ({} : EngineState).errors ∧
      ∀ link ∈ extract_links_from_html ["/b"] "http://a.com/",
        ¬ (({} : EngineState).visited.contains link) →
        (link, 0 + 1) ∈ (processPage cfgKwFail {} "http://a.com/" 0).queue) :=
  ⟨⟨by decide, by decide, by decide, by decide⟩,
   keyword_check_failure_not_stored_still_crawled cfgKwFail {} "http://a.com/" 0 "ReadTimeout"
     { rawHtml := "<a href=/b>", anchors := ["/b"] } (by decide) (by decide) (by decide)
     (by decide) (by decide)⟩

end DataWizards
